import Mathlib

/-!
# The Insight explorer client (`src/lib/insight.js`)

A shallow embedding of the client: JavaScript values are a small value type,
exceptions are `Except JSVal`, the transport is a function from the request to
its reply, and an operation returns the record of what it did: the requests it
issued, the invocations of the caller's callback, the exception it threw and
the rejection left unhandled in the promise chain. The caller's callback is
taken to return normally.

The libraries the client calls (`@dashevo/dashcore-lib`, and the repository's
own `./models/addressinfo`) are not part of the file and are taken as a
parameter, `Bitcore`.
-/

namespace Explorer

/-! ## Values -/

/-- The two networks of the library's `Networks` registry. -/
inductive Network where
  | livenet
  | testnet
deriving DecidableEq, Repr

/-- The classes of error objects the client tells apart with `instanceof`. -/
inductive ErrKind where
  | InvalidArgument
  | TypeError
  | SyntaxError
  | Error
deriving DecidableEq, Repr

/-- An instance of the library's `Address`: its string form (`toString()`) and
its network. -/
structure Address where
  repr : String
  network : Network
deriving DecidableEq, Repr

/-- JavaScript values, as far as the client looks at them. -/
inductive JSVal where
  | undefined
  | null
  | bool (b : Bool)
  | num (n : Int)
  | str (s : String)
  | arr (xs : List JSVal)
  | obj (fields : List (String × JSVal))
  | error (kind : ErrKind) (message : String)
  | func (id : Nat)
  | network (n : Network)
  | address (a : Address)
  | transaction (id : Nat)

namespace JSVal

/-- JavaScript truthiness (`if (v)`, `v || w`, `!v`). -/
def truthy : JSVal → Bool
  | undefined => false
  | null => false
  | bool b => b
  | num n => decide (n ≠ 0)
  | str s => decide (s ≠ "")
  | _ => true

/-- The value of `a || b`. -/
def orElse (a b : JSVal) : JSVal :=
  if a.truthy then a else b

/-- Lodash `_.isFunction`. -/
def isFunction : JSVal → Bool
  | func _ => true
  | _ => false

/-- Lodash `_.isArray`. -/
def isArray : JSVal → Bool
  | arr _ => true
  | _ => false

/-- The test `v instanceof Transaction`. -/
def isTransaction : JSVal → Bool
  | transaction _ => true
  | _ => false

/-- The test `v instanceof errors.InvalidArgument`. -/
def isInvalidArgument : JSVal → Bool
  | error ErrKind.InvalidArgument _ => true
  | _ => false

/-- The test `v instanceof SyntaxError`. -/
def isSyntaxError : JSVal → Bool
  | error ErrKind.SyntaxError _ => true
  | _ => false

/-- The test `v !== 200`. -/
def isNot200 : JSVal → Bool
  | num n => decide (n ≠ 200)
  | _ => true

/-- The property read `v.k` for the property names the client reads from a
response or a body (`data`, `status`, `txid`, `lastblockhash`), none of which
is a built-in property of a value: reading from `undefined` or `null` throws a
`TypeError`, an object gives the field or `undefined`, any other value gives
`undefined`. -/
def get (v : JSVal) (k : String) : Except JSVal JSVal :=
  match v with
  | undefined => .error (error ErrKind.TypeError ("Cannot read properties of undefined (reading " ++ k ++ ")"))
  | null => .error (error ErrKind.TypeError ("Cannot read properties of null (reading " ++ k ++ ")"))
  | obj fields => .ok ((fields.lookup k).getD undefined)
  | _ => .ok undefined

end JSVal

/-- The `length` of a JavaScript string: its number of UTF-16 code units. -/
def utf16Length (s : String) : Nat :=
  (s.toList.map (fun c => if c.toNat < 0x10000 then 1 else 2)).sum

/-- `Array.prototype.join(',')` on an array of strings. -/
def jsJoin : List String → String
  | [] => ""
  | [x] => x
  | x :: y :: rest => x ++ "," ++ jsJoin (y :: rest)

/-- The items a Lodash `_.map` visits in a parsed JSON body, in order: the
elements of an array, the values of an object, the characters of a string
(one item per character; a character outside the basic plane is two items in
JavaScript), nothing for a number, a boolean, `null` or `undefined`. -/
def lodashItems : JSVal → List JSVal
  | .arr xs => xs
  | .obj fields => fields.map Prod.snd
  | .str s => s.toList.map (fun c => JSVal.str (String.singleton c))
  | _ => []

/-- Sequential map with exceptions: the first exception ends the map. -/
def mapExcept {α β : Type} (f : α → Except JSVal β) : List α → Except JSVal (List β)
  | [] => .ok []
  | x :: xs =>
    match f x with
    | .error e => .error e
    | .ok y =>
      match mapExcept f xs with
      | .error e => .error e
      | .ok ys => .ok (y :: ys)

/-! ## The libraries, as a parameter -/

/-- What the client uses of `@dashevo/dashcore-lib` and of
`./models/addressinfo`. -/
structure Bitcore where
  /-- The value of `Networks.defaultNetwork`. -/
  defaultNetwork : Network
  /-- The function `Networks.get(arg)`; `none` is the `undefined` it returns for
  an unknown argument. -/
  networksGet : JSVal → Option Network
  /-- The constructor `new Address(data, network)`; the network is `none` when
  the argument is not passed. -/
  newAddress : JSVal → Option Network → Except JSVal Address
  /-- The constructor `Transaction.UnspentOutput(data)`. -/
  UnspentOutput : JSVal → Except JSVal JSVal
  /-- The predicate `JSUtil.isHexa(value)`. -/
  isHexa : JSVal → Bool
  /-- The method `transaction.serialize()` of the transaction with that id. -/
  serialize : Nat → Except JSVal JSVal
  /-- The function `AddressInfo.fromInsight(body)`. -/
  fromInsight : JSVal → Except JSVal JSVal

/-- The error of `$.checkArgument` on a false condition. -/
def invalidArgument : JSVal :=
  JSVal.error ErrKind.InvalidArgument "Invalid Argument"

/-- The precondition `$.checkArgument(condition)`. -/
def checkArgument (condition : Bool) : Except JSVal Unit :=
  if condition then .ok () else .error invalidArgument

/-! ## The client -/

/-- The client: the two immutable properties set by the constructor. The url is
a value, since the constructor stores what it was given. -/
structure Insight where
  url : JSVal
  network : Network

/-- The constructor from its second statement on (the lookup of the first
argument as a network, and the definition of the two properties). -/
def Insight.construct (lib : Bitcore) (url network : JSVal) : Insight :=
  match lib.networksGet url with
  | some n =>
    { url := JSVal.str (if n = Network.livenet then "https://insight.dash.org"
        else "https://insight.testnet.networks.dash.org:3002"),
      network := (lib.networksGet (JSVal.network n)).getD lib.defaultNetwork }
  | none =>
    { url := url,
      network := (lib.networksGet network).getD lib.defaultNetwork }

/-- The constructor `new Insight(url, network)`; an argument not passed is
`undefined`. With neither argument it builds the client of the default
network, whose network object is truthy, so that the inner call goes straight
to the second statement. -/
def Insight.new (lib : Bitcore) (url network : JSVal) : Insight :=
  if !url.truthy && !network.truthy then
    Insight.construct lib (JSVal.network lib.defaultNetwork) JSVal.undefined
  else
    Insight.construct lib url network

/-- The two primitives of the transport. -/
inductive Method where
  | GET
  | POST
deriving DecidableEq, Repr

/-- A call of the transport: `request.get(this.url + path)` or
`request.post(this.url + path, qs.stringify(data))`. The url is kept as its
two operands, and the body as the data object handed to `qs.stringify` (its
fields in order; none for a GET). -/
structure Request where
  method : Method
  base : JSVal
  path : String
  data : List (String × JSVal)

/-- How the promise of the transport settles. -/
inductive Reply where
  | resolve (res : JSVal)
  | reject (err : JSVal)

/-- The transport (`this.request`). -/
abbrev Transport := Request → Reply

/-- One invocation of the caller's callback: `callback(err, result)`; an
argument not passed is `undefined`. -/
structure Call where
  err : JSVal
  result : JSVal

/-- What an operation did. -/
structure Outcome where
  /-- The calls of the transport, in order. -/
  requests : List Request
  /-- The invocations of the caller's callback, in order. -/
  callbacks : List Call
  /-- The exception thrown to the caller, if any. -/
  thrown : Option JSVal
  /-- The rejection no handler of the promise chain took, if any. -/
  unhandled : Option JSVal

/-- An operation that throws before it does anything else. -/
def Outcome.throw (e : JSVal) : Outcome :=
  { requests := [], callbacks := [], thrown := some e, unhandled := none }

/-- The operation whose synchronous part is `body`. -/
def Outcome.ofExcept (body : Except JSVal Outcome) : Outcome :=
  match body with
  | .ok o => o
  | .error e => Outcome.throw e

/-- The internal callback `function(err, res, body)` of an operation: it
throws, or ends by invoking the caller's callback. -/
abbrev Handler := JSVal → JSVal → JSVal → Except JSVal Call

/-- The chain `.then((res) => callback(null, res, res.data)).catch((err) =>
callback(err))`: on a resolved promise the handler runs on the response and
its data, and an exception of that run (the read of `res.data` included) is
caught by the `catch`, which runs the handler again on the exception alone; on
a rejected promise only the `catch` runs. An exception of the run inside the
`catch` is a rejection nobody handles. -/
def settle (reply : Reply) (handler : Handler) : List Call × Option JSVal :=
  let caught : JSVal → List Call × Option JSVal := fun err =>
    match handler err JSVal.undefined JSVal.undefined with
    | .ok c => ([c], none)
    | .error e => ([], some e)
  match reply with
  | .resolve res =>
    match (res.get "data").bind (fun body => handler JSVal.null res body) with
    | .ok c => ([c], none)
    | .error e => caught e
  | .reject err => caught err

/-- The method `requestGet(path, callback)`. Its two preconditions hold at
every call in the file (the path is a string, the callback a function). -/
def Insight.requestGet (self : Insight) (path : String) (handler : Handler)
    (t : Transport) : Outcome :=
  let req : Request := { method := Method.GET, base := self.url, path := path, data := [] }
  let r := settle (t req) handler
  { requests := [req], callbacks := r.1, thrown := none, unhandled := r.2 }

/-- The method `requestPost(path, data, callback)`. Its two preconditions hold
at every call in the file. -/
def Insight.requestPost (self : Insight) (path : String) (data : List (String × JSVal))
    (handler : Handler) (t : Transport) : Outcome :=
  let req : Request := { method := Method.POST, base := self.url, path := path, data := data }
  let r := settle (t req) handler
  { requests := [req], callbacks := r.1, thrown := none, unhandled := r.2 }

/-- The condition `err || res.status !== 200`; the status is read only when
`err` is falsy. -/
def failed (err res : JSVal) : Except JSVal Bool :=
  if err.truthy then .ok true
  else (res.get "status").bind (fun s => .ok s.isNot200)

/-- The handler of `getTransaction`. -/
def getTransactionHandler : Handler := fun err res body =>
  (failed err res).bind fun f =>
    if f then .ok { err := err.orElse res, result := JSVal.undefined }
    else .ok { err := JSVal.null, result := body }

/-- The method `getTransaction(txid, callback)`. -/
def Insight.getTransaction (self : Insight) (txid callback : JSVal) (t : Transport) :
    Outcome :=
  Outcome.ofExcept <|
    (checkArgument callback.isFunction).bind fun _ =>
    match txid with
    | JSVal.str s =>
      (checkArgument (decide (utf16Length s = 64))).bind fun _ =>
      .ok (self.requestGet ("/insight-api/tx/" ++ s) getTransactionHandler t)
    | _ => .error invalidArgument

/-- The handler of `getUtxos`: an exception of the map that is an
`InvalidArgument` goes to the callback; any other exception is dropped by the
`catch`, and the handler goes on to `callback(null, unspent)` with `unspent`
still the body. -/
def getUtxosHandler (lib : Bitcore) : Handler := fun err res unspent =>
  (failed err res).bind fun f =>
    if f then .ok { err := err.orElse res, result := JSVal.undefined }
    else
      match mapExcept lib.UnspentOutput (lodashItems unspent) with
      | .ok utxos => .ok { err := JSVal.null, result := JSVal.arr utxos }
      | .error ex =>
        if ex.isInvalidArgument then .ok { err := ex, result := JSVal.undefined }
        else .ok { err := JSVal.null, result := unspent }

/-- The method `getUtxos(addresses, callback)`. -/
def Insight.getUtxos (lib : Bitcore) (self : Insight) (addresses callback : JSVal)
    (t : Transport) : Outcome :=
  Outcome.ofExcept <|
    (checkArgument callback.isFunction).bind fun _ =>
    let list : List JSVal :=
      match addresses with
      | JSVal.arr xs => xs
      | other => [other]
    (mapExcept (fun address => lib.newAddress address none) list).bind fun addrs =>
    .ok (self.requestPost "/insight-api/addrs/utxo"
      [("addrs", JSVal.str (jsJoin (addrs.map Address.repr)))] (getUtxosHandler lib) t)

/-- The handler of `broadcast`. -/
def broadcastHandler : Handler := fun err res body =>
  (failed err res).bind fun f =>
    if f then .ok { err := err.orElse res, result := JSVal.undefined }
    else if body.truthy then
      (body.get "txid").bind fun txid => .ok { err := JSVal.null, result := txid }
    else .ok { err := JSVal.null, result := JSVal.null }

/-- The method `broadcast(transaction, callback)`. -/
def Insight.broadcast (lib : Bitcore) (self : Insight) (transaction callback : JSVal)
    (t : Transport) : Outcome :=
  Outcome.ofExcept <|
    (checkArgument (lib.isHexa transaction || transaction.isTransaction)).bind fun _ =>
    (checkArgument callback.isFunction).bind fun _ =>
    (match transaction with
      | JSVal.transaction id => lib.serialize id
      | other => .ok other).bind fun rawtx =>
    .ok (self.requestPost "/insight-api/tx/send" [("rawtx", rawtx)] broadcastHandler t)

/-- The handler of `broadcastInstant`. -/
def broadcastInstantHandler : Handler := fun err res body =>
  (failed err res).bind fun f =>
    if f then .ok { err := err.orElse body, result := JSVal.undefined }
    else if body.truthy then
      (body.get "txid").bind fun txid => .ok { err := JSVal.null, result := txid }
    else .ok { err := JSVal.null, result := JSVal.null }

/-- The method `broadcastInstant(transaction, callback)`. -/
def Insight.broadcastInstant (lib : Bitcore) (self : Insight)
    (transaction callback : JSVal) (t : Transport) : Outcome :=
  Outcome.ofExcept <|
    (checkArgument (lib.isHexa transaction || transaction.isTransaction)).bind fun _ =>
    (checkArgument callback.isFunction).bind fun _ =>
    (match transaction with
      | JSVal.transaction id => lib.serialize id
      | other => .ok other).bind fun rawtx =>
    .ok (self.requestPost "/insight-api/tx/sendix" [("rawtx", rawtx)]
      broadcastInstantHandler t)

/-- The handler of `address`: a `SyntaxError` of the translation goes to the
callback, any other exception is thrown again. -/
def addressHandler (lib : Bitcore) : Handler := fun err res body =>
  (failed err res).bind fun f =>
    if f then .ok { err := err.orElse body, result := JSVal.undefined }
    else
      match lib.fromInsight body with
      | .ok info => .ok { err := JSVal.null, result := info }
      | .error e =>
        if e.isSyntaxError then .ok { err := e, result := JSVal.undefined }
        else .error e

/-- The method `address(address, callback)`. The `Address` constructor is
called with the address alone: no network is passed. -/
def Insight.address (lib : Bitcore) (self : Insight) (address callback : JSVal)
    (t : Transport) : Outcome :=
  Outcome.ofExcept <|
    (checkArgument callback.isFunction).bind fun _ =>
    (lib.newAddress address none).bind fun a =>
    .ok (self.requestGet ("/insight-api/addr/" ++ a.repr) (addressHandler lib) t)

/-- The handler of `status`: the read of `body.lastblockhash` throws a
`TypeError` on a body that is `undefined` or `null`, which is not a
`SyntaxError` and is thrown again. -/
def statusHandler : Handler := fun err res body =>
  (failed err res).bind fun f =>
    if f then .ok { err := err.orElse body, result := JSVal.undefined }
    else
      match body.get "lastblockhash" with
      | .ok info => .ok { err := JSVal.null, result := info }
      | .error e =>
        if e.isSyntaxError then .ok { err := e, result := JSVal.undefined }
        else .error e

/-- The method `status(callback)`. -/
def Insight.status (self : Insight) (callback : JSVal) (t : Transport) : Outcome :=
  Outcome.ofExcept <|
    (checkArgument callback.isFunction).bind fun _ =>
    .ok (self.requestGet "/insight-api/status?q=getInfo" statusHandler t)

/-- The handler of `getBlockByHash` and of `getLastBlockHash`: the assignment
`info = body` inside the `try` cannot throw. -/
def bodyHandler : Handler := fun err res body =>
  (failed err res).bind fun f =>
    if f then .ok { err := err.orElse body, result := JSVal.undefined }
    else .ok { err := JSVal.null, result := body }

/-- The method `getBlockByHash(hash, callback)`, for a hash that is a string
(as its documentation has it; the method does not check it). -/
def Insight.getBlockByHash (self : Insight) (hash : String) (callback : JSVal)
    (t : Transport) : Outcome :=
  Outcome.ofExcept <|
    (checkArgument callback.isFunction).bind fun _ =>
    .ok (self.requestGet ("/insight-api/block/" ++ hash) bodyHandler t)

/-- The method `getLastBlockHash(callback)`. -/
def Insight.getLastBlockHash (self : Insight) (callback : JSVal) (t : Transport) :
    Outcome :=
  Outcome.ofExcept <|
    (checkArgument callback.isFunction).bind fun _ =>
    .ok (self.requestGet "/insight-api/status?q=getLastBlockHash" bodyHandler t)

/-! ## A stand-in for the libraries

The theorems below hold for every `Bitcore`. To run the client on a concrete
input a library is needed; this one follows the order of the checks of the
library's constructors, on a small part of their inputs. -/

/-- The alphabet of the Base58 encoding, in which the library writes the string
form of an address. -/
def base58Alphabet : List Char :=
  "123456789ABCDEFGHJKLMNPQRSTUVWXYZabcdefghijkmnopqrstuvwxyz".toList

/-- A non-empty string of Base58 characters. -/
def isBase58 (s : String) : Bool :=
  !s.toList.isEmpty && s.toList.all (fun c => base58Alphabet.contains c)

/-- A hexadecimal digit. -/
def isHexDigit (c : Char) : Bool :=
  "0123456789abcdefABCDEF".toList.contains c

/-- The library's `JSUtil.isHexa`: a string matching `/^[0-9a-fA-F]+$/`. -/
def sampleIsHexa : JSVal → Bool
  | .str s => !s.toList.isEmpty && s.toList.all isHexDigit
  | _ => false

/-- The library's `Networks.get` on a network object and on the names of the
two networks. -/
def sampleNetworksGet : JSVal → Option Network
  | .network n => some n
  | .str s =>
    if s = "livenet" ∨ s = "mainnet" then some Network.livenet
    else if s = "testnet" then some Network.testnet
    else none
  | _ => none

/-- The network whose version byte a Dash address carries, read off its first
character: `X` and `7` on the main network, `y`, `8` and `9` on the test
network. -/
def sampleVersion (s : String) : Option Network :=
  match s.toList with
  | c :: _ =>
    if c = 'X' ∨ c = '7' then some Network.livenet
    else if c = 'y' ∨ c = '8' ∨ c = '9' then some Network.testnet
    else none
  | [] => none

/-- The library's `new Address(data, network)`: an `Address` instance is
returned as it is; a string is decoded, and rejected when no network has its
version byte or when a network is passed and is not the one it decodes to. -/
def sampleNewAddress (data : JSVal) (network : Option Network) : Except JSVal Address :=
  match data with
  | .address a => .ok a
  | .str s =>
    if !isBase58 s then .error (JSVal.error ErrKind.Error "Non-base58 character")
    else
      match sampleVersion s with
      | none => .error (JSVal.error ErrKind.TypeError "Address has mismatched network type.")
      | some n =>
        if network = none ∨ network = some n then .ok { repr := s, network := n }
        else .error (JSVal.error ErrKind.TypeError "Address has mismatched network type.")
  | .undefined => .error (JSVal.error ErrKind.InvalidArgument "First argument is required")
  | .null => .error (JSVal.error ErrKind.InvalidArgument "First argument is required")
  | _ => .error (JSVal.error ErrKind.TypeError "First argument is an unrecognized data format.")

/-- The library's `UnspentOutput(data)`: its checks in order (an object; a
hexadecimal `txid` of at most 64 characters, else a plain `Error`; a numeric
`vout`, else a plain `Error`; a `scriptPubKey` and an `amount`, else an
`InvalidArgument`). -/
def sampleUnspentOutput (data : JSVal) : Except JSVal JSVal :=
  match data with
  | .obj fields =>
    match fields.lookup "txid" with
    | some (.str id) =>
      if sampleIsHexa (.str id) && decide (utf16Length id ≤ 64) then
        match fields.lookup "vout" with
        | some (.num n) =>
          match fields.lookup "scriptPubKey", fields.lookup "amount" with
          | some script, some amount =>
            .ok (.obj [("txId", .str id), ("outputIndex", .num n), ("script", script),
              ("amount", amount)])
          | none, _ => .error (JSVal.error ErrKind.InvalidArgument
              "Must provide the scriptPubKey for that output!")
          | _, none => .error (JSVal.error ErrKind.InvalidArgument
              "Must provide an amount for the output")
        | _ => .error (JSVal.error ErrKind.Error "Invalid outputIndex")
      else .error (JSVal.error ErrKind.Error "Invalid TXID in object")
    | _ => .error (JSVal.error ErrKind.Error "Invalid TXID in object")
  | _ => .error (JSVal.error ErrKind.InvalidArgument
      "Must provide an object from where to extract data")

/-- The numeric field `k` of a payload, zero when it is absent or not a
number. -/
def numberOrZero (fields : List (String × JSVal)) (k : String) : JSVal :=
  match fields.lookup k with
  | some (.num n) => .num n
  | _ => .num 0

/-- Modelled from the spec: `AddressInfo.fromInsight` of `./models/addressinfo`,
which is not among the sources. An object payload that names its address
becomes the summary of the address, each numeric field present or normalized
to zero; any other payload fails translation. -/
def sampleFromInsight : JSVal → Except JSVal JSVal
  | .obj fields =>
    match fields.lookup "address" with
    | some (.str a) =>
      .ok (.obj [("address", .str a),
        ("balance", numberOrZero fields "balance"),
        ("totalReceived", numberOrZero fields "totalReceived"),
        ("totalSent", numberOrZero fields "totalSent"),
        ("txCount", numberOrZero fields "txCount"),
        ("unconfirmedBalance", numberOrZero fields "unconfirmedBalance")])
    | _ => .error (JSVal.error ErrKind.InvalidArgument "Invalid Argument")
  | _ => .error (JSVal.error ErrKind.SyntaxError "Unexpected token")

/-- The stand-in library. Its transactions all serialize to the same bytes. -/
def sampleLib : Bitcore where
  defaultNetwork := Network.livenet
  networksGet := sampleNetworksGet
  newAddress := sampleNewAddress
  UnspentOutput := sampleUnspentOutput
  isHexa := sampleIsHexa
  serialize := fun _ => .ok (.str "0300")
  fromInsight := sampleFromInsight

/-- A response of the explorer: its status and its parsed body. -/
def response (status : Int) (body : JSVal) : JSVal :=
  .obj [("status", .num status), ("data", body)]

/-- The client of the main network. -/
def mainClient : Insight :=
  { url := .str "https://insight.dash.org", network := Network.livenet }

/-- The client of the test network. -/
def testClient : Insight :=
  { url := .str "https://insight.testnet.networks.dash.org:3002", network := Network.testnet }

/-! ## Theorems -/

/-! ### Helper lemmas -/

theorem toList_append (a b : String) : (a ++ b).toList = a.toList ++ b.toList := rfl

theorem mapExcept_ok_iff {α β : Type} (f : α → Except JSVal β) (xs : List α) (ys : List β) :
    mapExcept f xs = .ok ys ↔ List.Forall₂ (fun x y => f x = .ok y) xs ys := by
  induction xs generalizing ys with
  | nil =>
    cases ys <;> simp [mapExcept]
  | cons x xs ih =>
    cases hfx : f x with
    | error e =>
      simp only [mapExcept, hfx]
      constructor
      · intro h; cases h
      · intro h
        cases h with
        | cons h1 _ => rw [hfx] at h1; cases h1
    | ok y =>
      cases hrest : mapExcept f xs with
      | error e =>
        simp only [mapExcept, hfx, hrest]
        constructor
        · intro h; cases h
        · intro h
          cases h with
          | cons _ h2 => rw [← ih] at h2; rw [hrest] at h2; cases h2
      | ok zs =>
        simp only [mapExcept, hfx, hrest]
        constructor
        · intro h
          cases h
          exact List.Forall₂.cons hfx ((ih zs).mp hrest)
        · intro h
          cases h with
          | cons h1 h2 =>
            rw [hfx] at h1
            cases h1
            rw [← ih] at h2
            rw [hrest] at h2
            cases h2
            rfl

theorem base58_no_comma (s : String) (h : isBase58 s = true) :
    s.toList ≠ [] ∧ ∀ c ∈ s.toList, c ≠ ',' := by
  unfold isBase58 at h
  simp only [Bool.and_eq_true, Bool.not_eq_true', List.all_eq_true] at h
  obtain ⟨h1, h2⟩ := h
  refine ⟨?_, ?_⟩
  · intro h0
    rw [h0] at h1
    simp at h1
  · intro c hc hcomma
    have := h2 c hc
    rw [hcomma] at this
    revert this
    decide

theorem jsJoin_eq_intercalate_go (acc : String) (xs : List String) :
    String.intercalate.go acc "," xs = jsJoin (acc :: xs) := by
  induction xs generalizing acc with
  | nil => rfl
  | cons y rest ih =>
    rw [String.intercalate.go, ih]
    cases rest with
    | nil => rfl
    | cons z r =>
      simp only [jsJoin, String.append_assoc]

/-- The join of the client is the library join with separator `","`. -/
theorem jsJoin_eq_intercalate (xs : List String) : jsJoin xs = ",".intercalate xs := by
  cases xs with
  | nil => rfl
  | cons x rest => rw [String.intercalate, jsJoin_eq_intercalate_go]

theorem jsJoin_count (xs : List String) (hne : xs ≠ [])
    (h : ∀ x ∈ xs, ∀ c ∈ x.toList, c ≠ ',') :
    (jsJoin xs).toList.count ',' = xs.length - 1 := by
  induction xs with
  | nil => exact absurd rfl hne
  | cons x rest ih =>
    have hx : x.toList.count ',' = 0 := by
      rw [List.count_eq_zero]
      intro hmem
      exact h x (List.mem_cons_self _ _) _ hmem rfl
    cases rest with
    | nil => simpa [jsJoin] using hx
    | cons y r =>
      have ih2 := ih (by simp) (fun z hz => h z (List.mem_cons_of_mem _ hz))
      have hcomma : (",".toList).count ',' = 1 := by decide
      simp only [jsJoin, toList_append, List.count_append, hx, ih2, hcomma, List.length_cons]
      omega

theorem jsJoin_head (xs : List String) (hne : xs ≠ [])
    (h : ∀ x ∈ xs, x.toList ≠ [] ∧ ∀ c ∈ x.toList, c ≠ ',') :
    (jsJoin xs).toList.head? ≠ some ',' := by
  cases xs with
  | nil => exact absurd rfl hne
  | cons x rest =>
    obtain ⟨hx1, hx2⟩ := h x (List.mem_cons_self _ _)
    have key : ∀ tl : List Char, (x.toList ++ tl).head? ≠ some ',' := by
      intro tl
      cases hxl : x.toList with
      | nil => exact absurd hxl hx1
      | cons c cs =>
        simp only [List.cons_append, List.head?_cons, ne_eq, Option.some.injEq]
        exact hx2 c (by rw [hxl]; exact List.mem_cons_self _ _)
    cases rest with
    | nil => simpa [jsJoin] using key []
    | cons y r =>
      simp only [jsJoin, toList_append, List.append_assoc]
      exact key _

theorem jsJoin_getLast (xs : List String) (hne : xs ≠ [])
    (h : ∀ x ∈ xs, x.toList ≠ [] ∧ ∀ c ∈ x.toList, c ≠ ',') :
    (jsJoin xs).toList.getLast? ≠ some ',' := by
  induction xs with
  | nil => exact absurd rfl hne
  | cons x rest ih =>
    cases rest with
    | nil =>
      obtain ⟨_, hx2⟩ := h x (List.mem_cons_self _ _)
      simp only [jsJoin]
      intro hlast
      exact hx2 _ (List.mem_of_getLast?_eq_some hlast) rfl
    | cons y r =>
      have ih2 := ih (by simp) (fun z hz => h z (List.mem_cons_of_mem _ hz))
      have hne2 : (jsJoin (y :: r)).toList ≠ [] := by
        intro h0
        rw [h0] at ih2
        cases r with
        | nil =>
          simp only [jsJoin] at h0
          exact (h y (by simp)).1 h0
        | cons z r2 =>
          simp only [jsJoin, toList_append] at h0
          simp at h0
      simp only [jsJoin, toList_append]
      rw [List.getLast?_append_of_ne_nil _ hne2]
      exact ih2

/-! ### Transaction ids -/

/-- C1: for every txid that is not a string of length 64, `getTransaction`
throws an `InvalidArgument` error, issues no request and never invokes the
callback, whatever the transport would answer. -/
theorem getTransaction_rejects_malformed_txid (self : Insight) (txid callback : JSVal)
    (t : Transport) (h : ∀ s, txid = JSVal.str s → utf16Length s ≠ 64) :
    (self.getTransaction txid callback t).requests = [] ∧
    (self.getTransaction txid callback t).callbacks = [] ∧
    (self.getTransaction txid callback t).unhandled = none ∧
    (self.getTransaction txid callback t).thrown = some invalidArgument ∧
    invalidArgument.isInvalidArgument = true := by
  have key : self.getTransaction txid callback t = Outcome.throw invalidArgument := by
    unfold Insight.getTransaction
    cases hcb : callback.isFunction with
    | false => rfl
    | true =>
      cases txid with
      | str s =>
        have hs : utf16Length s ≠ 64 := h s rfl
        simp [checkArgument, Except.bind, Outcome.ofExcept, hs]
      | _ => rfl
  rw [key]
  exact ⟨rfl, rfl, rfl, rfl, rfl⟩

theorem getTransaction_rejects_malformed_txid_witness :
    (∀ s, JSVal.str "abc123" = JSVal.str s → utf16Length s ≠ 64) ∧
    (mainClient.getTransaction (.str "abc123") (.func 0)
      (fun _ => .resolve (response 200 (.obj [])))).requests = [] ∧
    (mainClient.getTransaction (.str "abc123") (.func 0)
      (fun _ => .resolve (response 200 (.obj [])))).thrown = some invalidArgument :=
  have h : ∀ s, JSVal.str "abc123" = JSVal.str s → utf16Length s ≠ 64 := by
    intro s hs
    cases hs
    decide
  ⟨h, (getTransaction_rejects_malformed_txid mainClient (.str "abc123") (.func 0) _ h).1,
    (getTransaction_rejects_malformed_txid mainClient (.str "abc123") (.func 0) _ h).2.2.2.1⟩

/-! ### Unspent outputs: the request -/

/-- C2: for a non-empty list of n valid addresses `getUtxos` issues exactly one
request, a POST to `/insight-api/addrs/utxo` whose `addrs` field is the string
forms of the addresses in input order joined by `","`; with string forms in
Base58 that field has n - 1 commas, none of them first or last. A valid
address given alone is sent as it is, as the one-element list is. -/
theorem getUtxos_posts_joined_addresses (lib : Bitcore) (self : Insight)
    (addresses : List JSVal) (addrs : List Address) (callback : JSVal) (t : Transport)
    (hcb : callback.isFunction = true) (hne : addresses ≠ [])
    (hvalid : List.Forall₂ (fun x a => lib.newAddress x none = .ok a) addresses addrs)
    (hrepr : ∀ a ∈ addrs, isBase58 a.repr = true) :
    (Insight.getUtxos lib self (.arr addresses) callback t).requests =
      [{ method := Method.POST, base := self.url, path := "/insight-api/addrs/utxo",
         data := [("addrs", .str (",".intercalate (addrs.map Address.repr)))] }] ∧
    (Insight.getUtxos lib self (.arr addresses) callback t).thrown = none ∧
    (",".intercalate (addrs.map Address.repr)).toList.count ',' = addresses.length - 1 ∧
    (",".intercalate (addrs.map Address.repr)).toList.head? ≠ some ',' ∧
    (",".intercalate (addrs.map Address.repr)).toList.getLast? ≠ some ',' ∧
    (∀ x a, x.isArray = false → lib.newAddress x none = .ok a →
      Insight.getUtxos lib self x callback t = Insight.getUtxos lib self (.arr [x]) callback t ∧
      (Insight.getUtxos lib self x callback t).requests =
        [{ method := Method.POST, base := self.url, path := "/insight-api/addrs/utxo",
           data := [("addrs", .str a.repr)] }]) := by
  have hmap := (mapExcept_ok_iff (fun x => lib.newAddress x none) addresses addrs).mpr hvalid
  have hlen : addrs.length = addresses.length := hvalid.length_eq.symm
  have hne2 : addrs.map Address.repr ≠ [] := by
    intro h0
    have : addrs = [] := List.map_eq_nil_iff.mp h0
    rw [this] at hlen
    exact hne (List.length_eq_zero.mp hlen.symm)
  have hall : ∀ x ∈ addrs.map Address.repr, x.toList ≠ [] ∧ ∀ c ∈ x.toList, c ≠ ',' := by
    intro x hx
    obtain ⟨a, ha, rfl⟩ := List.mem_map.mp hx
    exact base58_no_comma _ (hrepr a ha)
  rw [← jsJoin_eq_intercalate]
  refine ⟨?_, ?_, ?_, jsJoin_head _ hne2 hall, jsJoin_getLast _ hne2 hall, ?_⟩
  · simp [Insight.getUtxos, checkArgument, hcb, Except.bind, Outcome.ofExcept, hmap,
      Insight.requestPost]
  · simp [Insight.getUtxos, checkArgument, hcb, Except.bind, Outcome.ofExcept, hmap,
      Insight.requestPost]
  · rw [jsJoin_count _ hne2 (fun x hx => (hall x hx).2), List.length_map, hlen]
  · intro x a hx ha
    constructor
    · cases x <;> first | rfl | (simp [JSVal.isArray] at hx)
    · cases x <;>
        first
        | (simp [JSVal.isArray] at hx; done)
        | simp [Insight.getUtxos, checkArgument, hcb, Except.bind, Outcome.ofExcept, mapExcept,
            ha, Insight.requestPost, jsJoin]

theorem getUtxos_posts_joined_addresses_witness :
    (Insight.getUtxos sampleLib mainClient
      (.arr [.str "XuUGDZHrKLo841CyamDbG5W7n59epA71h2", .str "yNPbcFfabtNmmxKdGwhHomdYfVs6gikbPf",
        .str "7gnwGHt17heGpG9Crfeh4KGpYNFugPhJdh"]) (.func 0)
      (fun _ => .resolve (response 200 (.arr [])))).requests =
      [{ method := Method.POST, base := mainClient.url, path := "/insight-api/addrs/utxo",
         data := [("addrs", .str ("XuUGDZHrKLo841CyamDbG5W7n59epA71h2," ++
           "yNPbcFfabtNmmxKdGwhHomdYfVs6gikbPf,7gnwGHt17heGpG9Crfeh4KGpYNFugPhJdh"))] }] :=
  (getUtxos_posts_joined_addresses sampleLib mainClient
    [.str "XuUGDZHrKLo841CyamDbG5W7n59epA71h2", .str "yNPbcFfabtNmmxKdGwhHomdYfVs6gikbPf",
      .str "7gnwGHt17heGpG9Crfeh4KGpYNFugPhJdh"]
    [⟨"XuUGDZHrKLo841CyamDbG5W7n59epA71h2", Network.livenet⟩,
      ⟨"yNPbcFfabtNmmxKdGwhHomdYfVs6gikbPf", Network.testnet⟩,
      ⟨"7gnwGHt17heGpG9Crfeh4KGpYNFugPhJdh", Network.livenet⟩]
    (.func 0) _ rfl (by simp)
    (List.Forall₂.cons rfl (List.Forall₂.cons rfl (List.Forall₂.cons rfl List.Forall₂.nil)))
    (by decide)).1

/-! ### Broadcast -/

theorem broadcast_eq_requestPost (lib : Bitcore) (self : Insight)
    (transaction callback : JSVal) (t : Transport)
    (hcb : callback.isFunction = true)
    (harg : (lib.isHexa transaction || transaction.isTransaction) = true)
    (hser : ∀ id, transaction = .transaction id → ∃ raw, lib.serialize id = .ok raw) :
    ∃ rawtx, Insight.broadcast lib self transaction callback t =
      self.requestPost "/insight-api/tx/send" [("rawtx", rawtx)] broadcastHandler t := by
  by_cases htx : ∃ id, transaction = .transaction id
  · obtain ⟨id, rfl⟩ := htx
    obtain ⟨raw, hraw⟩ := hser id rfl
    exact ⟨raw, by
      simp [Insight.broadcast, checkArgument, hcb, harg, hraw, Except.bind, Outcome.ofExcept]⟩
  · refine ⟨transaction, ?_⟩
    cases transaction <;>
      first
      | (exfalso; exact htx ⟨_, rfl⟩)
      | (simp only [Insight.broadcast, checkArgument, hcb, harg, Except.bind, Outcome.ofExcept,
          if_true])

theorem broadcastHandler_ok (res body : JSVal)
    (hstatus : res.get "status" = .ok (.num 200)) :
    broadcastHandler .null res body =
      if body.truthy then (body.get "txid").bind fun txid => .ok ⟨.null, txid⟩
      else .ok ⟨.null, .null⟩ := by
  simp [broadcastHandler, failed, JSVal.truthy, hstatus, Except.bind, JSVal.isNot200]

/-- C5, as the client has it: on a status 200 the callback of `broadcast` gets
no error and, as its result, the `txid` field of the body when the body has
one; `undefined` when the body is an object without that field, or another
truthy value; `null` when the body is absent or otherwise falsy. -/
theorem broadcast_ok_result (lib : Bitcore) (self : Insight)
    (transaction callback res body : JSVal) (t : Transport)
    (hcb : callback.isFunction = true)
    (harg : (lib.isHexa transaction || transaction.isTransaction) = true)
    (hser : ∀ id, transaction = .transaction id → ∃ raw, lib.serialize id = .ok raw)
    (hreply : ∀ req, t req = .resolve res)
    (hstatus : res.get "status" = .ok (.num 200))
    (hbody : res.get "data" = .ok body) :
    (∀ fields txid, body = .obj fields → fields.lookup "txid" = some txid →
      (Insight.broadcast lib self transaction callback t).callbacks = [⟨.null, txid⟩]) ∧
    (∀ fields, body = .obj fields → fields.lookup "txid" = none →
      (Insight.broadcast lib self transaction callback t).callbacks = [⟨.null, .undefined⟩]) ∧
    (body.truthy = true → (∀ fields, body ≠ .obj fields) →
      (Insight.broadcast lib self transaction callback t).callbacks = [⟨.null, .undefined⟩]) ∧
    (body.truthy = false →
      (Insight.broadcast lib self transaction callback t).callbacks = [⟨.null, .null⟩]) := by
  obtain ⟨rawtx, hpost⟩ := broadcast_eq_requestPost lib self transaction callback t hcb harg hser
  rw [hpost]
  refine ⟨?_, ?_, ?_, ?_⟩
  · intro fields txid hb hf
    subst hb
    simp only [Insight.requestPost, settle, hreply, hbody, Except.bind,
      broadcastHandler_ok _ _ hstatus]
    simp [JSVal.truthy, JSVal.get, hf, Except.bind]
  · intro fields hb hf
    subst hb
    simp only [Insight.requestPost, settle, hreply, hbody, Except.bind,
      broadcastHandler_ok _ _ hstatus]
    simp [JSVal.truthy, JSVal.get, hf, Except.bind]
  · intro htruthy hnobj
    simp only [Insight.requestPost, settle, hreply, hbody, Except.bind,
      broadcastHandler_ok _ _ hstatus]
    rw [if_pos htruthy]
    cases body <;>
      first
      | (simp [JSVal.truthy] at htruthy; done)
      | (exfalso; exact hnobj _ rfl)
      | simp [JSVal.get, Except.bind]
  · intro hfalsy
    simp only [Insight.requestPost, settle, hreply, hbody, Except.bind,
      broadcastHandler_ok _ _ hstatus]
    simp [hfalsy]

theorem broadcast_ok_result_witness :
    (Insight.broadcast sampleLib mainClient (.str "0300") (.func 0)
      (fun _ => .resolve (response 200 (.obj [("txid", .str "9f2c")])))).callbacks =
      [⟨.null, .str "9f2c"⟩] :=
  (broadcast_ok_result sampleLib mainClient (.str "0300") (.func 0)
    (response 200 (.obj [("txid", .str "9f2c")])) (.obj [("txid", .str "9f2c")]) _
    rfl rfl (by intro id h; cases h) (fun _ => rfl) rfl rfl).1 _ _ rfl rfl

/-- C5, the claim at a body that is an object without a `txid` field: the
callback gets no error and the result `undefined`, which is not `null`. -/
theorem broadcast_empty_object_gives_undefined :
    (Insight.broadcast sampleLib mainClient (.str "0300") (.func 0)
      (fun _ => .resolve (response 200 (.obj [])))).callbacks = [⟨.null, .undefined⟩] ∧
    (Insight.broadcast sampleLib mainClient (.str "0300") (.func 0)
      (fun _ => .resolve (response 200 (.obj [])))).callbacks ≠ [⟨.null, .null⟩] := by
  refine ⟨rfl, ?_⟩
  intro h
  have h2 : (Insight.broadcast sampleLib mainClient (.str "0300") (.func 0)
      (fun _ => .resolve (response 200 (.obj [])))).callbacks = [⟨.null, .undefined⟩] := rfl
  rw [h2] at h
  cases h

theorem response_ne_body (status : Int) (body : JSVal) : response status body ≠ body := by
  intro h
  have hs := congrArg sizeOf h
  simp [response] at hs
  omega

/-- C6, the client at a status 500: for every body, the error that `broadcast`
hands the callback is the whole response object (status and data), which is
never the body itself. -/
theorem broadcast_status_500_hands_response (body : JSVal) :
    (Insight.broadcast sampleLib mainClient (.str "0300") (.func 0)
      (fun _ => .resolve (response 500 body))).callbacks =
      [⟨response 500 body, .undefined⟩] ∧
    response 500 body ≠ body :=
  ⟨rfl, response_ne_body 500 body⟩

/-- C7, the two methods at the same argument and the same answer of the
transport, a status 500 with a body: `broadcast` hands the callback the
response object, `broadcastInstant` the body, so the error values differ. -/
theorem broadcast_and_broadcastInstant_differ :
    (Insight.broadcast sampleLib mainClient (.str "0300") (.func 0)
      (fun _ => .resolve (response 500 (.str "tx rejected")))).callbacks =
      [⟨response 500 (.str "tx rejected"), .undefined⟩] ∧
    (Insight.broadcastInstant sampleLib mainClient (.str "0300") (.func 0)
      (fun _ => .resolve (response 500 (.str "tx rejected")))).callbacks =
      [⟨.str "tx rejected", .undefined⟩] ∧
    (Insight.broadcast sampleLib mainClient (.str "0300") (.func 0)
      (fun _ => .resolve (response 500 (.str "tx rejected")))).callbacks ≠
    (Insight.broadcastInstant sampleLib mainClient (.str "0300") (.func 0)
      (fun _ => .resolve (response 500 (.str "tx rejected")))).callbacks := by
  refine ⟨rfl, rfl, ?_⟩
  intro h
  have h1 : (Insight.broadcast sampleLib mainClient (.str "0300") (.func 0)
      (fun _ => .resolve (response 500 (.str "tx rejected")))).callbacks =
      [⟨response 500 (.str "tx rejected"), .undefined⟩] := rfl
  have h2 : (Insight.broadcastInstant sampleLib mainClient (.str "0300") (.func 0)
      (fun _ => .resolve (response 500 (.str "tx rejected")))).callbacks =
      [⟨.str "tx rejected", .undefined⟩] := rfl
  rw [h1, h2] at h
  simp [response] at h

/-! ### Unspent outputs: the response -/

/-- The handler of `getUtxos` on a status 200: when the translation of the
items throws an error that is not an `InvalidArgument`, the callback gets no
error and the body as it came. -/
theorem getUtxosHandler_drops_other_errors (lib : Bitcore) (res unspent ex : JSVal)
    (hstatus : res.get "status" = .ok (.num 200))
    (hmap : mapExcept lib.UnspentOutput (lodashItems unspent) = .error ex)
    (hkind : ex.isInvalidArgument = false) :
    getUtxosHandler lib .null res unspent = .ok ⟨.null, unspent⟩ := by
  simp [getUtxosHandler, failed, JSVal.truthy, hstatus, Except.bind, JSVal.isNot200, hmap, hkind]

/-- C3, the client at a status 200 whose array has one valid element and one
whose `txid` is not hexadecimal: the constructor of the second throws a plain
`Error`, and the callback gets no error and the untranslated array. -/
theorem getUtxos_returns_untranslated_array :
    sampleUnspentOutput (.obj [("txid", .str "zz"), ("vout", .num 1),
      ("scriptPubKey", .str "76a914"), ("amount", .num 2)]) =
      .error (JSVal.error ErrKind.Error "Invalid TXID in object") ∧
    (Insight.getUtxos sampleLib mainClient (.str "XuUGDZHrKLo841CyamDbG5W7n59epA71h2") (.func 0)
      (fun _ => .resolve (response 200 (.arr [
        .obj [("txid", .str "9f2c"), ("vout", .num 0), ("scriptPubKey", .str "76a914"),
          ("amount", .num 1)],
        .obj [("txid", .str "zz"), ("vout", .num 1), ("scriptPubKey", .str "76a914"),
          ("amount", .num 2)]])))).callbacks =
      [⟨.null, .arr [
        .obj [("txid", .str "9f2c"), ("vout", .num 0), ("scriptPubKey", .str "76a914"),
          ("amount", .num 1)],
        .obj [("txid", .str "zz"), ("vout", .num 1), ("scriptPubKey", .str "76a914"),
          ("amount", .num 2)]]⟩] :=
  ⟨rfl, rfl⟩

/-! ### Address lookup -/

/-- C4, as the client has it: `address` validates its argument with the
`Address` constructor called without a network, whatever the network of the
client. When the constructor accepts the argument, one GET of
`/insight-api/addr/` followed by the address is issued; when it throws, the
method throws that error, issues no request and never invokes the callback. -/
theorem address_validates_without_network (lib : Bitcore) (self : Insight)
    (address callback : JSVal) (t : Transport) (hcb : callback.isFunction = true) :
    (∀ a, lib.newAddress address none = .ok a →
      (Insight.address lib self address callback t).requests =
        [{ method := Method.GET, base := self.url, path := "/insight-api/addr/" ++ a.repr,
           data := [] }] ∧
      (Insight.address lib self address callback t).thrown = none) ∧
    (∀ e, lib.newAddress address none = .error e →
      (Insight.address lib self address callback t).requests = [] ∧
      (Insight.address lib self address callback t).callbacks = [] ∧
      (Insight.address lib self address callback t).thrown = some e) := by
  constructor
  · intro a ha
    simp [Insight.address, checkArgument, hcb, ha, Except.bind, Outcome.ofExcept,
      Insight.requestGet]
  · intro e he
    simp [Insight.address, checkArgument, hcb, he, Except.bind, Outcome.ofExcept, Outcome.throw]

theorem address_validates_without_network_witness :
    (Insight.address sampleLib testClient (.str "yNPbcFfabtNmmxKdGwhHomdYfVs6gikbPf") (.func 0)
      (fun _ => .resolve (response 200 (.obj [])))).requests =
      [{ method := Method.GET, base := testClient.url,
         path := "/insight-api/addr/yNPbcFfabtNmmxKdGwhHomdYfVs6gikbPf", data := [] }] ∧
    (Insight.address sampleLib testClient (.str "not an address") (.func 0)
      (fun _ => .resolve (response 200 (.obj [])))).requests = [] :=
  ⟨((address_validates_without_network sampleLib testClient
      (.str "yNPbcFfabtNmmxKdGwhHomdYfVs6gikbPf") (.func 0) _ rfl).1
      ⟨"yNPbcFfabtNmmxKdGwhHomdYfVs6gikbPf", Network.testnet⟩ rfl).1,
   ((address_validates_without_network sampleLib testClient
      (.str "not an address") (.func 0) _ rfl).2 _ rfl).1⟩

/-- C4, the claim at an address of the main network and the client of the test
network: the library accepts the address for the main network and rejects it
for the test network, and `address` throws nothing and issues the request. -/
theorem address_main_address_on_test_client :
    sampleLib.newAddress (.str "XuUGDZHrKLo841CyamDbG5W7n59epA71h2") (some Network.livenet) =
      .ok ⟨"XuUGDZHrKLo841CyamDbG5W7n59epA71h2", Network.livenet⟩ ∧
    sampleLib.newAddress (.str "XuUGDZHrKLo841CyamDbG5W7n59epA71h2") (some Network.testnet) =
      .error (JSVal.error ErrKind.TypeError "Address has mismatched network type.") ∧
    testClient.network = Network.testnet ∧
    (Insight.address sampleLib testClient (.str "XuUGDZHrKLo841CyamDbG5W7n59epA71h2") (.func 0)
      (fun _ => .resolve (response 200 (.obj [])))).thrown = none ∧
    (Insight.address sampleLib testClient (.str "XuUGDZHrKLo841CyamDbG5W7n59epA71h2") (.func 0)
      (fun _ => .resolve (response 200 (.obj [])))).requests =
      [{ method := Method.GET, base := testClient.url,
         path := "/insight-api/addr/XuUGDZHrKLo841CyamDbG5W7n59epA71h2", data := [] }] :=
  ⟨rfl, rfl, rfl, rfl, rfl⟩

/-! ### The status other than 200 -/

/-- C8, the five methods that hand the callback `err || body`, at a status
other than 200 whose body is `null`: the callback of each gets the error
`null` (and no result), as on a success. -/
theorem non_200_with_null_body_gives_null_error :
    (Insight.broadcastInstant sampleLib mainClient (.str "0300") (.func 0)
      (fun _ => .resolve (response 201 .null))).callbacks = [⟨.null, .undefined⟩] ∧
    (Insight.address sampleLib mainClient (.str "XuUGDZHrKLo841CyamDbG5W7n59epA71h2") (.func 0)
      (fun _ => .resolve (response 404 .null))).callbacks = [⟨.null, .undefined⟩] ∧
    (mainClient.status (.func 0)
      (fun _ => .resolve (response 500 .null))).callbacks = [⟨.null, .undefined⟩] ∧
    (mainClient.getBlockByHash "00000000000000112e41e4b3afda8b233b8cc07c532d2eac5de097b68358c43e"
      (.func 0) (fun _ => .resolve (response 404 .null))).callbacks = [⟨.null, .undefined⟩] ∧
    (mainClient.getLastBlockHash (.func 0)
      (fun _ => .resolve (response 201 .null))).callbacks = [⟨.null, .undefined⟩] :=
  ⟨rfl, rfl, rfl, rfl, rfl⟩

/-! ### Network status -/

theorem statusHandler_ok (res body : JSVal)
    (hstatus : res.get "status" = .ok (.num 200)) :
    statusHandler .null res body =
      match body.get "lastblockhash" with
      | .ok info => .ok ⟨.null, info⟩
      | .error e => if e.isSyntaxError then .ok ⟨e, .undefined⟩ else .error e := by
  simp [statusHandler, failed, JSVal.truthy, hstatus, Except.bind, JSVal.isNot200]

theorem statusHandler_caught (e : JSVal) (he : e.truthy = true) :
    statusHandler e .undefined .undefined = .ok ⟨e, .undefined⟩ := by
  simp [statusHandler, failed, he, Except.bind, JSVal.orElse]

/-- C9, as the client has it: on a status 200 whose body is an object the
callback of `status` gets no error and the `lastblockhash` field of the body:
the hash when the body carries one, and `undefined`, still without an error,
when the field is missing. A result other than `undefined` without an error
comes only from a body that carries it as `lastblockhash`. -/
theorem status_ok_result (self : Insight) (callback res body : JSVal) (t : Transport)
    (hcb : callback.isFunction = true)
    (hreply : ∀ req, t req = .resolve res)
    (hstatus : res.get "status" = .ok (.num 200))
    (hbody : res.get "data" = .ok body) :
    (∀ fields h, body = .obj fields → fields.lookup "lastblockhash" = some h →
      (self.status callback t).callbacks = [⟨.null, h⟩]) ∧
    (∀ fields, body = .obj fields → fields.lookup "lastblockhash" = none →
      (self.status callback t).callbacks = [⟨.null, .undefined⟩]) ∧
    (∀ h, (self.status callback t).callbacks = [⟨.null, h⟩] → h ≠ .undefined →
      ∃ fields, body = .obj fields ∧ fields.lookup "lastblockhash" = some h) := by
  have hrun : (self.status callback t).callbacks =
      (match (match body.get "lastblockhash" with
          | .ok info => (.ok ⟨.null, info⟩ : Except JSVal Call)
          | .error e => if e.isSyntaxError then .ok ⟨e, .undefined⟩ else .error e) with
        | .ok c => ([c], none)
        | .error e =>
          match statusHandler e .undefined .undefined with
          | .ok c => ([c], (none : Option JSVal))
          | .error e => ([], some e)).1 := by
    simp only [Insight.status, checkArgument, hcb, Except.bind, Outcome.ofExcept, if_true,
      Insight.requestGet, settle, hreply, hbody, statusHandler_ok _ _ hstatus]
  rw [hrun]
  refine ⟨?_, ?_, ?_⟩
  · intro fields h hb hf
    subst hb
    simp [JSVal.get, hf]
  · intro fields hb hf
    subst hb
    simp [JSVal.get, hf]
  · intro h hcall hne
    cases body with
    | obj fields =>
      refine ⟨fields, rfl, ?_⟩
      cases hf : fields.lookup "lastblockhash" with
      | none =>
        simp [JSVal.get, hf] at hcall
        exact absurd hcall.symm hne
      | some v =>
        simp [JSVal.get, hf] at hcall
        rw [hcall]
    | undefined =>
      simp [JSVal.get, JSVal.isSyntaxError, statusHandler_caught, JSVal.truthy] at hcall
    | null =>
      simp [JSVal.get, JSVal.isSyntaxError, statusHandler_caught, JSVal.truthy] at hcall
    | _ =>
      simp [JSVal.get] at hcall
      exact absurd hcall.symm hne

theorem status_ok_result_witness :
    (mainClient.status (.func 0)
      (fun _ => .resolve (response 200 (.obj [("lastblockhash", .str "abc123")])))).callbacks =
      [⟨.null, .str "abc123"⟩] :=
  (status_ok_result mainClient (.func 0)
    (response 200 (.obj [("lastblockhash", .str "abc123")]))
    (.obj [("lastblockhash", .str "abc123")]) _ rfl (fun _ => rfl) rfl rfl).1 _ _ rfl rfl

/-- C9, the claim at a body without a `lastblockhash` field: the callback of
`status` gets the error `null`, a success, with the result `undefined`. -/
theorem status_missing_field_is_success :
    (mainClient.status (.func 0)
      (fun _ => .resolve (response 200 (.obj [("blocks", .num 1204)])))).callbacks =
      [⟨.null, .undefined⟩] :=
  rfl

/-! ### The constructor -/

/-- The constructor on a network as its only argument, and on no argument, for
a library whose `Networks.get` returns a network object as it is: the network
of the client is that network (the default one with no argument) and the url
is the host of the main network for the main network, of the test network
otherwise. -/
theorem new_with_network_first (lib : Bitcore) (n : Network) (arg : JSVal)
    (hobj : ∀ m, lib.networksGet (.network m) = some m)
    (harg : lib.networksGet arg = some n) (htruthy : arg.truthy = true) :
    Insight.new lib arg .undefined =
      { url := .str (if n = Network.livenet then "https://insight.dash.org"
          else "https://insight.testnet.networks.dash.org:3002"), network := n } ∧
    Insight.new lib .undefined .undefined =
      { url := .str (if lib.defaultNetwork = Network.livenet then "https://insight.dash.org"
          else "https://insight.testnet.networks.dash.org:3002"),
        network := lib.defaultNetwork } := by
  constructor
  · simp [Insight.new, Insight.construct, htruthy, harg, hobj]
  · simp [Insight.new, Insight.construct, JSVal.truthy, hobj]

/-- C10, the constructor at a network passed as the second argument with no
url: the network of the client is the test network and its url is left
`undefined`; the same network as the only argument gives the url of its host. -/
theorem new_with_network_second_leaves_url_undefined :
    (Insight.new sampleLib .undefined (.str "testnet")).network = Network.testnet ∧
    (Insight.new sampleLib .undefined (.str "testnet")).url = .undefined ∧
    (Insight.new sampleLib (.str "testnet") .undefined).url =
      .str "https://insight.testnet.networks.dash.org:3002" :=
  ⟨rfl, rfl, rfl⟩

end Explorer
